import Mathlib

/-!
Shallow embedding of the Kokkos SIMD unit-test harness
(`simd/unit_tests/TestSimd.cpp`): the two assertion checkers, the three lane
loaders, the chunked comparison drivers for the host and the device execution
contexts, the loader iteration, the ABI-set dispatcher and the shipped
addition scenario.

Modelling conventions:
* a SIMD batch of width `w` over element type `T` is a function `Fin w → T`;
* a source pointer is the view of memory from that pointer, a function
  `Nat → T` (`mem j` is `ptr[j]`); pointer arithmetic `ptr + i` becomes
  `fun j => mem (i + j)`;
* the element type of the shipped scenario is `double`, but every value the
  scenario ever produces (operands, sums, the zero fill) is a small integer,
  exactly representable in binary64, and IEEE-754 addition is exact on such
  values, so the scalar type is modelled by `Int`;
* each checker call is modelled by the list of observable actions it performs
  (its events) together with a flag saying whether it stopped the run
  (`std::abort` on the host, a failed `KOKKOS_ASSERT` on the device);
* the C++ `for (i = 0; i < n; i += width)` loops of the drivers are modelled
  with an explicit fuel argument; `n` units of fuel suffice for any positive
  width, which is an invariant of every ABI configuration;
* a default-constructed batch is uninitialised in C++; it is modelled as the
  constant batch on an arbitrary, universally quantified value `init`.
-/

namespace SimdTest

/-- One observable action of the host (gtest) checker: a non-fatal
`EXPECT_TRUE` record carrying the boolean it was given, a non-fatal
`EXPECT_EQ` record carrying the two compared values, or a call to
`std::abort`. -/
inductive HostEvent (T : Type) where
  | expectTrue (x : Bool)
  | expectEq (a b : T)
  | abortCall
  deriving DecidableEq

/-- One observable action of the device (Kokkos) checker: a `KOKKOS_ASSERT`
carrying the boolean it was given. -/
inductive DeviceEvent where
  | assert (x : Bool)
  deriving DecidableEq

/-- Does a host event pass (record no failure)?  A recorded `EXPECT_TRUE`
passes when its boolean is true, a recorded `EXPECT_EQ` event passes (in this
embedding it is only emitted on equal values), an abort does not pass. -/
def hostEventPasses {T : Type} : HostEvent T → Bool
  | .expectTrue x => x
  | .expectEq _ _ => true
  | .abortCall => false

/-- Is a host event a record made through the structured gtest reporting
mechanism (as opposed to the bare `std::abort`)? -/
def hostEventIsRecord {T : Type} : HostEvent T → Bool
  | .expectTrue _ => true
  | .expectEq _ _ => true
  | .abortCall => false

/-- Does a device event pass? -/
def deviceEventPasses : DeviceEvent → Bool
  | .assert x => x

/-- Embeds `gtest_checker::truth`: `EXPECT_TRUE(x)` records the boolean and
always continues (a gtest `EXPECT_*` macro is non-fatal).  Returns the events
performed and whether the run was stopped. -/
def gtest_truth (T : Type) (x : Bool) : List (HostEvent T) × Bool :=
  ([HostEvent.expectTrue x], false)

/-- Embeds `gtest_checker::equality`: `if (a != b) std::abort();
EXPECT_EQ(a, b);`.  When the values differ the process aborts before
`EXPECT_EQ` is reached, so no structured record is made; when they agree
`EXPECT_EQ` records the (passing) comparison and the run continues. -/
def gtest_equality {T : Type} [DecidableEq T] (a b : T) :
    List (HostEvent T) × Bool :=
  if a ≠ b then ([HostEvent.abortCall], true)
  else ([HostEvent.expectEq a b], false)

/-- Embeds `kokkos_checker::truth`: `KOKKOS_ASSERT(x)` records the boolean and
halts execution exactly when it is false. -/
def kokkos_truth (x : Bool) : DeviceEvent × Bool :=
  (DeviceEvent.assert x, !x)

/-- Embeds `kokkos_checker::equality`: `KOKKOS_ASSERT(a == b)`. -/
def kokkos_equality {T : Type} [DecidableEq T] (a b : T) :
    DeviceEvent × Bool :=
  (DeviceEvent.assert (decide (a = b)), !(decide (a = b)))

/-- Elementwise equality comparison of two batches, yielding a mask: the
external simd `operator==`. -/
def simdEqMask {T : Type} [DecidableEq T] {w : Nat} (a b : Fin w → T) :
    Fin w → Bool :=
  fun i => decide (a i = b i)

/-- Elementwise inequality comparison of two batches, yielding a mask: the
external simd `operator!=`. -/
def simdNeMask {T : Type} [DecidableEq T] {w : Nat} (a b : Fin w → T) :
    Fin w → Bool :=
  fun i => decide (¬ a i = b i)

/-- Reduction over a mask: true when every lane is true (external `all_of`). -/
def all_of {w : Nat} (m : Fin w → Bool) : Bool :=
  (List.finRange w).all m

/-- Reduction over a mask: true when no lane is true (external `none_of`). -/
def none_of {w : Nat} (m : Fin w → Bool) : Bool :=
  (List.finRange w).all fun i => !(m i)

/-- The per-lane `EXPECT_EQ` loop of `host_check_equality`; the loop body is
`gtest_checker::equality`, and execution stops as soon as one call aborts. -/
def host_equality_loop {T : Type} [DecidableEq T] {w : Nat}
    (e c : Fin w → T) : List (Fin w) → List (HostEvent T) × Bool
  | [] => ([], false)
  | i :: rest =>
    let r := gtest_equality (e i) (c i)
    if r.2 then (r.1, true)
    else
      let k := host_equality_loop e c rest
      (r.1 ++ k.1, k.2)

/-- Embeds `host_check_equality`: two `EXPECT_TRUE` reduction assertions
followed by the per-lane `EXPECT_EQ` loop.  `EXPECT_TRUE` never stops the
run, so both reduction records are always emitted before the loop starts. -/
def host_check_equality {T : Type} [DecidableEq T] {w : Nat}
    (e c : Fin w → T) : List (HostEvent T) × Bool :=
  let k := host_equality_loop e c (List.finRange w)
  (HostEvent.expectTrue (all_of (simdEqMask e c)) ::
    HostEvent.expectTrue (none_of (simdNeMask e c)) :: k.1, k.2)

/-- The per-lane `KOKKOS_ASSERT` loop of `device_check_equality`. -/
def device_equality_loop {T : Type} [DecidableEq T] {w : Nat}
    (e c : Fin w → T) : List (Fin w) → List DeviceEvent × Bool
  | [] => ([], false)
  | i :: rest =>
    let r := kokkos_equality (e i) (c i)
    if r.2 then ([r.1], true)
    else
      let k := device_equality_loop e c rest
      (r.1 :: k.1, k.2)

/-- Embeds `device_check_equality`: two `KOKKOS_ASSERT` reduction assertions
followed by the per-lane assertion loop; a failed assertion halts. -/
def device_check_equality {T : Type} [DecidableEq T] {w : Nat}
    (e c : Fin w → T) : List DeviceEvent × Bool :=
  let t1 := kokkos_truth (all_of (simdEqMask e c))
  if t1.2 then ([t1.1], true)
  else
    let t2 := kokkos_truth (none_of (simdNeMask e c))
    if t2.2 then ([t1.1, t2.1], true)
    else
      let k := device_equality_loop e c (List.finRange w)
      (t1.1 :: t2.1 :: k.1, k.2)

/-- A lane-loader strategy.  Each load form takes the batch width, the memory
view at the source pointer, the available count, and the destination batch
(passed by reference in C++, so the returned batch is its final value); it
returns the success flag together with that final batch. -/
structure LoaderImpl (T : Type) where
  hostLoad : (w : Nat) → (Nat → T) → Nat → (Fin w → T) → Bool × (Fin w → T)
  deviceLoad : (w : Nat) → (Nat → T) → Nat → (Fin w → T) → Bool × (Fin w → T)

/-- Embeds `load_element_aligned`: fails, leaving the destination untouched,
when `n < result.size()`; otherwise bulk-copies `width` contiguous elements
(`copy_from` with the element-aligned tag). -/
def load_element_aligned (T : Type) : LoaderImpl T where
  hostLoad := fun w mem n result =>
    if n < w then (false, result) else (true, fun i => mem i.val)
  deviceLoad := fun w mem n result =>
    if n < w then (false, result) else (true, fun i => mem i.val)

/-- The mask-building loop of `load_masked`: the mask is default-constructed
all-false and the loop `for (i = 0; i < n; ++i) mask[i] = true;` sets the
first `n` lanes true. -/
def buildMask (w n : Nat) : Fin w → Bool :=
  (List.range n).foldl (fun m i => fun j => if j.val = i then true else m j)
    (fun _ => false)

/-- Embeds `load_masked`: a conditional load of the masked lanes from the
source (`where(mask, result).copy_from`), then an explicit zero fill of the
unmasked lanes (`where(!mask, result) = T(0)`); always succeeds. -/
def load_masked (T : Type) [Zero T] : LoaderImpl T where
  hostLoad := fun w mem n result =>
    let mask := buildMask w n
    let r1 : Fin w → T := fun i => if mask i then mem i.val else result i
    let r2 : Fin w → T := fun i => if !(mask i) then 0 else r1 i
    (true, r2)
  deviceLoad := fun w mem n result =>
    let mask := buildMask w n
    let r1 : Fin w → T := fun i => if mask i then mem i.val else result i
    let r2 : Fin w → T := fun i => if !(mask i) then 0 else r1 i
    (true, r2)

/-- Embeds `load_as_scalars`: per-lane indexed assignment of the first `n`
lanes from the source, then per-lane zero fill of the remaining lanes; always
succeeds. -/
def load_as_scalars (T : Type) [Zero T] : LoaderImpl T where
  hostLoad := fun w mem n result =>
    let r1 : Fin w → T := fun i => if i.val < n then mem i.val else result i
    let r2 : Fin w → T := fun i => if n ≤ i.val then 0 else r1 i
    (true, r2)
  deviceLoad := fun w mem n result =>
    let r1 : Fin w → T := fun i => if i.val < n then mem i.val else result i
    let r2 : Fin w → T := fun i => if n ≤ i.val then 0 else r1 i
    (true, r2)

/-- A binary-operation adapter: one call form for each execution context. -/
structure BinaryOp (T : Type) where
  on_host : T → T → T
  on_device : T → T → T

/-- Embeds `class plus`: addition in both call forms. -/
def plusOp (T : Type) [Add T] : BinaryOp T :=
  ⟨fun a b => a + b, fun a b => a + b⟩

/-- Applying a scalar binary operation lane-wise to whole batches: the
external simd arithmetic operator used by the vectorised call. -/
def simdMap2 {T : Type} {w : Nat} (f : T → T → T) (a b : Fin w → T) :
    Fin w → T :=
  fun i => f (a i) (b i)

/-- Everything the driver produces for one chunk it compared: the chunk start,
the lane count handed to the loader, the two loaded batches, the expected and
the computed result batches, and the checker's events and abort flag. -/
structure ChunkCmp (T : Type) (w : Nat) (E : Type) where
  start : Nat
  nlanes : Nat
  arg1 : Fin w → T
  arg2 : Fin w → T
  expected : Fin w → T
  computed : Fin w → T
  events : List E
  aborted : Bool

/-- The driver's record of one visited chunk: either skipped (a load
declined) or compared. -/
inductive ChunkResult (T : Type) (w : Nat) (E : Type) where
  | skipped (start nlanes : Nat)
  | compared (c : ChunkCmp T w E)

/-- Chunk start index of a visited chunk. -/
def resStart {T : Type} {w : Nat} {E : Type} : ChunkResult T w E → Nat
  | .skipped s _ => s
  | .compared c => c.start

/-- Lane count handed to the loader for a visited chunk. -/
def resNlanes {T : Type} {w : Nat} {E : Type} : ChunkResult T w E → Nat
  | .skipped _ nl => nl
  | .compared c => c.nlanes

/-- Whether a visited chunk was compared (as opposed to skipped). -/
def resIsCompared {T : Type} {w : Nat} {E : Type} : ChunkResult T w E → Bool
  | .skipped _ _ => false
  | .compared _ => true

/-- First loaded batch of a visited chunk (zero batch for a skipped one). -/
def resArg1 {T : Type} [Zero T] {w : Nat} {E : Type} :
    ChunkResult T w E → (Fin w → T)
  | .skipped _ _ => fun _ => 0
  | .compared c => c.arg1

/-- Second loaded batch of a visited chunk (zero batch for a skipped one). -/
def resArg2 {T : Type} [Zero T] {w : Nat} {E : Type} :
    ChunkResult T w E → (Fin w → T)
  | .skipped _ _ => fun _ => 0
  | .compared c => c.arg2

/-- Expected-result batch of a visited chunk (zero batch for a skipped one). -/
def resExpected {T : Type} [Zero T] {w : Nat} {E : Type} :
    ChunkResult T w E → (Fin w → T)
  | .skipped _ _ => fun _ => 0
  | .compared c => c.expected

/-- Computed-result batch of a visited chunk (zero batch for a skipped one). -/
def resComputed {T : Type} [Zero T] {w : Nat} {E : Type} :
    ChunkResult T w E → (Fin w → T)
  | .skipped _ _ => fun _ => 0
  | .compared c => c.computed

/-- Checker events a visited chunk contributed (none for a skipped one). -/
def resEvents {T : Type} {w : Nat} {E : Type} : ChunkResult T w E → List E
  | .skipped _ _ => []
  | .compared c => c.events

/-- Whether the checker aborted the run while comparing this chunk. -/
def resAborted {T : Type} {w : Nat} {E : Type} : ChunkResult T w E → Bool
  | .skipped _ _ => false
  | .compared c => c.aborted

/-- The `k`-th visited chunk of a driver run (an arbitrary skipped chunk when
out of range). -/
def resAt {T : Type} {w : Nat} {E : Type} (run : List (ChunkResult T w E))
    (k : Nat) : ChunkResult T w E :=
  run.getD k (ChunkResult.skipped 0 0)

/-- Did any compared chunk of the run abort? -/
def runAborted {T : Type} {w : Nat} {E : Type}
    (run : List (ChunkResult T w E)) : Bool :=
  run.any fun r => resAborted r

/-- All checker events of a run, in execution order. -/
def runTrace {T : Type} {w : Nat} {E : Type}
    (run : List (ChunkResult T w E)) : List E :=
  run.foldr (fun r acc => resEvents r ++ acc) []

/-- A run passes when every event it performed passes and it never aborted. -/
def runPasses {T : Type} {w : Nat} {E : Type} (passes : E → Bool)
    (run : List (ChunkResult T w E)) : Bool :=
  (runTrace run).all passes && !(runAborted run)

/-- The chunk loop of `host_check_binary_op_one_loader`, with explicit fuel.
For each chunk start `i < n` it computes `nlanes = min(n - i, width)`, loads
both operands through the loader's host form, skips the chunk when either
load declined, and otherwise derives the expected batch per lane from the
loaded batches' own lane values, computes the vectorised result, and runs
`host_check_equality`; an abort there stops the whole loop. -/
def hostDriverLoop {T : Type} [DecidableEq T] (L : LoaderImpl T)
    (op : BinaryOp T) (w n : Nat) (first second : Nat → T) (init : T) :
    Nat → Nat → List (ChunkResult T w (HostEvent T))
  | 0, _ => []
  | fuel + 1, i =>
    if i < n then
      let nlanes := min (n - i) w
      let r1 := L.hostLoad w (fun j => first (i + j)) nlanes fun _ => init
      let r2 := L.hostLoad w (fun j => second (i + j)) nlanes fun _ => init
      if r1.1 && r2.1 then
        let expected : Fin w → T := fun j => op.on_host (r1.2 j) (r2.2 j)
        let computed : Fin w → T := simdMap2 op.on_host r1.2 r2.2
        let chk := host_check_equality expected computed
        let c : ChunkCmp T w (HostEvent T) :=
          ⟨i, nlanes, r1.2, r2.2, expected, computed, chk.1, chk.2⟩
        if chk.2 then [ChunkResult.compared c]
        else ChunkResult.compared c ::
          hostDriverLoop L op w n first second init fuel (i + w)
      else ChunkResult.skipped i nlanes ::
        hostDriverLoop L op w n first second init fuel (i + w)
    else []

/-- Embeds `host_check_binary_op_one_loader`. -/
def host_check_binary_op_one_loader {T : Type} [DecidableEq T]
    (L : LoaderImpl T) (op : BinaryOp T) (w n : Nat)
    (first second : Nat → T) (init : T) :
    List (ChunkResult T w (HostEvent T)) :=
  hostDriverLoop L op w n first second init n 0

/-- The chunk loop of `device_check_binary_op_one_loader`: identical shape to
the host loop, but with the loader's device form, the operation's device
form, and the Kokkos checker. -/
def deviceDriverLoop {T : Type} [DecidableEq T] (L : LoaderImpl T)
    (op : BinaryOp T) (w n : Nat) (first second : Nat → T) (init : T) :
    Nat → Nat → List (ChunkResult T w DeviceEvent)
  | 0, _ => []
  | fuel + 1, i =>
    if i < n then
      let nlanes := min (n - i) w
      let r1 := L.deviceLoad w (fun j => first (i + j)) nlanes fun _ => init
      let r2 := L.deviceLoad w (fun j => second (i + j)) nlanes fun _ => init
      if r1.1 && r2.1 then
        let expected : Fin w → T := fun j => op.on_device (r1.2 j) (r2.2 j)
        let computed : Fin w → T := simdMap2 op.on_device r1.2 r2.2
        let chk := device_check_equality expected computed
        let c : ChunkCmp T w DeviceEvent :=
          ⟨i, nlanes, r1.2, r2.2, expected, computed, chk.1, chk.2⟩
        if chk.2 then [ChunkResult.compared c]
        else ChunkResult.compared c ::
          deviceDriverLoop L op w n first second init fuel (i + w)
      else ChunkResult.skipped i nlanes ::
        deviceDriverLoop L op w n first second init fuel (i + w)
    else []

/-- Embeds `device_check_binary_op_one_loader`. -/
def device_check_binary_op_one_loader {T : Type} [DecidableEq T]
    (L : LoaderImpl T) (op : BinaryOp T) (w n : Nat)
    (first second : Nat → T) (init : T) :
    List (ChunkResult T w DeviceEvent) :=
  deviceDriverLoop L op w n first second init n 0

/-- Embeds `host_check_binary_op_all_loaders`: the driver runs once per
loader strategy, in the declared order (element-aligned, masked, scalar),
against the same argument arrays; an abort in one run stops the process, so
later runs then never happen.  Each finished run is summarised by its event
trace and its abort flag. -/
def host_check_binary_op_all_loaders {T : Type} [DecidableEq T] [Zero T]
    (op : BinaryOp T) (w n : Nat) (first second : Nat → T) (init : T) :
    List (List (HostEvent T) × Bool) :=
  let r1 := host_check_binary_op_one_loader (load_element_aligned T) op w n
    first second init
  let o1 := (runTrace r1, runAborted r1)
  if o1.2 then [o1]
  else
    let r2 := host_check_binary_op_one_loader (load_masked T) op w n
      first second init
    let o2 := (runTrace r2, runAborted r2)
    if o2.2 then [o1, o2]
    else
      let r3 := host_check_binary_op_one_loader (load_as_scalars T) op w n
        first second init
      [o1, o2, (runTrace r3, runAborted r3)]

/-- First operand array of `host_check_addition`. -/
def firstArgs : Nat → Int :=
  fun k => [1, 2, -1, 10, 0, 1, -2].getD k 0

/-- Second operand array of `host_check_addition`. -/
def secondArgs : Nat → Int :=
  fun k => [1, 2, 1, 1, 0, -3, -2].getD k 0

/-- The per-index sums of the two scenario operand arrays: the expected
per-lane output of the shipped addition scenario. -/
def sumArgs : Nat → Int :=
  fun k => [2, 4, 0, 11, 0, -2, -4].getD k 0

/-- Embeds `host_check_addition`: the shipped scenario, `n = 7`, addition,
run through every loader. -/
def host_check_addition (w : Nat) (init : Int) :
    List (List (HostEvent Int) × Bool) :=
  host_check_binary_op_all_loaders (plusOp Int) w 7 firstArgs secondArgs init

/-- Embeds `host_check_abi`: the full host-side check sequence for one
configuration (currently exactly the addition scenario). -/
def host_check_abi (w : Nat) (init : Int) :
    List (List (HostEvent Int) × Bool) :=
  host_check_addition w init

/-- Did the check sequence of one configuration abort the process? -/
def abiAborted (o : List (List (HostEvent Int) × Bool)) : Bool :=
  o.any fun p => p.2

/-- Embeds the two overloads of `host_check_abis`: the base case on the empty
configuration set does nothing, the recursive case runs the full host-side
check sequence for the first configuration and recurses on the rest.  A
configuration is modelled by its vector width.  An abort stops the process,
so the remaining configurations then never run. -/
def host_check_abis (init : Int) : List Nat →
    List (Nat × List (List (HostEvent Int) × Bool))
  | [] => []
  | a :: rest =>
    let o := host_check_abi a init
    if abiAborted o then [(a, o)]
    else (a, o) :: host_check_abis init rest

/-- Did a whole dispatch abort the process? -/
def dispatchAborted
    (o : List (Nat × List (List (HostEvent Int) × Bool))) : Bool :=
  o.any fun p => abiAborted p.2

/-- Two sequential invocations of the dispatcher in one process on the same
configuration set and the same fixed argument arrays: the second invocation
happens only when the first did not abort the process. -/
def host_check_abis_twice (init : Int) (set : List Nat) :
    List (List (Nat × List (List (HostEvent Int) × Bool))) :=
  let o1 := host_check_abis init set
  if dispatchAborted o1 then [o1]
  else [o1, host_check_abis init set]

/-- The context-neutral summary of a visited chunk: start, lane count, and
(for a compared chunk) the loaded batches and the two result batches —
everything except the context-specific checker events. -/
def chunkSummary {T : Type} {w : Nat} {E : Type} : ChunkResult T w E →
    Nat × Nat × Option ((Fin w → T) × (Fin w → T) × (Fin w → T) × (Fin w → T))
  | .skipped s nl => (s, nl, none)
  | .compared c => (c.start, c.nlanes, some (c.arg1, c.arg2, c.expected, c.computed))

section Reductions

variable {T : Type} [DecidableEq T]

lemma all_of_refl {w : Nat} (e : Fin w → T) : all_of (simdEqMask e e) = true := by
  simp [all_of, simdEqMask]

lemma none_of_refl {w : Nat} (e : Fin w → T) :
    none_of (simdNeMask e e) = true := by
  simp [none_of, simdNeMask]

lemma gtest_equality_refl (a : T) :
    gtest_equality a a = ([HostEvent.expectEq a a], false) := by
  simp [gtest_equality]

lemma host_equality_loop_refl {w : Nat} (e : Fin w → T) (l : List (Fin w)) :
    host_equality_loop e e l
      = (l.map fun j => HostEvent.expectEq (e j) (e j), false) := by
  induction l with
  | nil => rfl
  | cons i rest ih => simp [host_equality_loop, gtest_equality_refl, ih]

lemma host_check_equality_refl {w : Nat} (e : Fin w → T) :
    host_check_equality e e =
      (HostEvent.expectTrue true :: HostEvent.expectTrue true ::
        (List.finRange w).map (fun j => HostEvent.expectEq (e j) (e j)),
        false) := by
  simp [host_check_equality, host_equality_loop_refl, all_of_refl, none_of_refl]

lemma kokkos_equality_refl (a : T) :
    kokkos_equality a a = (DeviceEvent.assert true, false) := by
  simp [kokkos_equality]

lemma device_equality_loop_refl {w : Nat} (e : Fin w → T) (l : List (Fin w)) :
    device_equality_loop e e l
      = (l.map fun _ => DeviceEvent.assert true, false) := by
  induction l with
  | nil => rfl
  | cons i rest ih => simp [device_equality_loop, kokkos_equality_refl, ih]

lemma device_check_equality_refl {w : Nat} (e : Fin w → T) :
    device_check_equality e e =
      (DeviceEvent.assert true :: DeviceEvent.assert true ::
        (List.finRange w).map (fun _ => DeviceEvent.assert true), false) := by
  simp [device_check_equality, kokkos_truth, all_of_refl, none_of_refl,
    device_equality_loop_refl]

end Reductions

section Loaders

lemma buildMask_succ (w n : Nat) :
    buildMask w (n + 1)
      = fun j => if j.val = n then true else buildMask w n j := by
  unfold buildMask
  rw [List.range_succ, List.foldl_append]
  rfl

lemma buildMask_apply (w n : Nat) (j : Fin w) :
    buildMask w n j = decide (j.val < n) := by
  induction n with
  | zero => simp [buildMask]
  | succ n ih =>
    rw [buildMask_succ]
    by_cases h : j.val = n
    · simp [h]
    · simp only [h, if_false, ih, decide_eq_decide]
      omega

variable {T : Type} [Zero T]

lemma load_element_aligned_success {w : Nat} (mem : Nat → T) (nl : Nat)
    (dest : Fin w → T) :
    ((load_element_aligned T).hostLoad w mem nl dest).1 = true ↔ w ≤ nl := by
  by_cases h : nl < w <;> simp [load_element_aligned, h] <;> omega

lemma load_element_aligned_shape {w : Nat} (mem : Nat → T) (nl : Nat)
    (dest : Fin w → T)
    (h : ((load_element_aligned T).hostLoad w mem nl dest).1 = true)
    (j : Fin w) :
    ((load_element_aligned T).hostLoad w mem nl dest).2 j
      = if j.val < nl then mem j.val else 0 := by
  rw [load_element_aligned_success] at h
  have hj := j.isLt
  simp only [load_element_aligned]
  rw [if_neg (by omega), if_pos (by omega)]

lemma load_masked_success {w : Nat} (mem : Nat → T) (nl : Nat)
    (dest : Fin w → T) :
    ((load_masked T).hostLoad w mem nl dest).1 = true := rfl

lemma load_masked_shape {w : Nat} (mem : Nat → T) (nl : Nat)
    (dest : Fin w → T) (j : Fin w) :
    ((load_masked T).hostLoad w mem nl dest).2 j
      = if j.val < nl then mem j.val else 0 := by
  simp only [load_masked, buildMask_apply]
  by_cases h : j.val < nl <;> simp [h]

lemma load_as_scalars_success {w : Nat} (mem : Nat → T) (nl : Nat)
    (dest : Fin w → T) :
    ((load_as_scalars T).hostLoad w mem nl dest).1 = true := rfl

lemma load_as_scalars_shape {w : Nat} (mem : Nat → T) (nl : Nat)
    (dest : Fin w → T) (j : Fin w) :
    ((load_as_scalars T).hostLoad w mem nl dest).2 j
      = if j.val < nl then mem j.val else 0 := by
  simp only [load_as_scalars]
  by_cases h : j.val < nl
  · simp [h, Nat.not_le.mpr h]
  · simp [h, Nat.not_lt.mp h]

lemma load_element_aligned_host_eq_device :
    (load_element_aligned T).hostLoad = (load_element_aligned T).deviceLoad :=
  rfl

lemma load_masked_host_eq_device :
    (load_masked T).hostLoad = (load_masked T).deviceLoad := rfl

lemma load_as_scalars_host_eq_device :
    (load_as_scalars T).hostLoad = (load_as_scalars T).deviceLoad := rfl

end Loaders

section HostDriver

variable {T : Type} [DecidableEq T]

lemma simdMap2_eq {w : Nat} (f : T → T → T) (a b : Fin w → T) :
    simdMap2 f a b = fun j => f (a j) (b j) := rfl

/-- The chunk record the host driver builds at start index `i` when both
loads succeed. -/
def hostChunkAt (L : LoaderImpl T) (op : BinaryOp T) (w n : Nat)
    (first second : Nat → T) (init : T) (i : Nat) :
    ChunkCmp T w (HostEvent T) :=
  let nl := min (n - i) w
  let a1 := (L.hostLoad w (fun j => first (i + j)) nl fun _ => init).2
  let a2 := (L.hostLoad w (fun j => second (i + j)) nl fun _ => init).2
  ⟨i, nl, a1, a2, fun j => op.on_host (a1 j) (a2 j),
    fun j => op.on_host (a1 j) (a2 j),
    HostEvent.expectTrue true :: HostEvent.expectTrue true ::
      (List.finRange w).map (fun j =>
        HostEvent.expectEq (op.on_host (a1 j) (a2 j))
          (op.on_host (a1 j) (a2 j))),
    false⟩

/-- One-step unfolding of the host chunk loop: the expected and the computed
batch of a chunk are lane-for-lane the same application of the scalar
operation to the loaded batches, so the equality check of a compared chunk
never aborts and the loop always continues to the next chunk. -/
lemma hostDriverLoop_succ (L : LoaderImpl T) (op : BinaryOp T) (w n : Nat)
    (first second : Nat → T) (init : T) (fuel i : Nat) :
    hostDriverLoop L op w n first second init (fuel + 1) i =
      if i < n then
        if (L.hostLoad w (fun j => first (i + j)) (min (n - i) w)
              fun _ => init).1
            && (L.hostLoad w (fun j => second (i + j)) (min (n - i) w)
              fun _ => init).1 then
          ChunkResult.compared (hostChunkAt L op w n first second init i) ::
            hostDriverLoop L op w n first second init fuel (i + w)
        else
          ChunkResult.skipped i (min (n - i) w) ::
            hostDriverLoop L op w n first second init fuel (i + w)
      else [] := by
  rw [hostDriverLoop]
  by_cases hin : i < n
  · rw [if_pos hin, if_pos hin]
    simp only [simdMap2_eq, host_check_equality_refl, hostChunkAt]
    simp
  · rw [if_neg hin, if_neg hin]

/-- Everything that is true of any chunk the host driver's loop records. -/
def HostChunkInv (L : LoaderImpl T) (op : BinaryOp T) (w n : Nat)
    (first second : Nat → T) (init : T) :
    ChunkResult T w (HostEvent T) → Prop
  | .skipped s nl =>
      s < n ∧ nl = min (n - s) w ∧
        ((L.hostLoad w (fun j => first (s + j)) nl fun _ => init).1 = false ∨
          (L.hostLoad w (fun j => second (s + j)) nl fun _ => init).1 = false)
  | .compared c =>
      c.start < n ∧ c.nlanes = min (n - c.start) w ∧
      (L.hostLoad w (fun j => first (c.start + j)) c.nlanes
        fun _ => init).1 = true ∧
      (L.hostLoad w (fun j => second (c.start + j)) c.nlanes
        fun _ => init).1 = true ∧
      c.arg1 = (L.hostLoad w (fun j => first (c.start + j)) c.nlanes
        fun _ => init).2 ∧
      c.arg2 = (L.hostLoad w (fun j => second (c.start + j)) c.nlanes
        fun _ => init).2 ∧
      c.expected = (fun j => op.on_host (c.arg1 j) (c.arg2 j)) ∧
      c.computed = c.expected ∧
      c.events = HostEvent.expectTrue true :: HostEvent.expectTrue true ::
        (List.finRange w).map (fun j =>
          HostEvent.expectEq (c.expected j) (c.computed j)) ∧
      c.aborted = false

lemma hostDriverLoop_mem (L : LoaderImpl T) (op : BinaryOp T) (w n : Nat)
    (first second : Nat → T) (init : T) :
    ∀ fuel i r, r ∈ hostDriverLoop L op w n first second init fuel i →
      HostChunkInv L op w n first second init r := by
  intro fuel
  induction fuel with
  | zero =>
    intro i r hr
    rw [hostDriverLoop] at hr
    simp at hr
  | succ fuel ih =>
    intro i r hr
    rw [hostDriverLoop_succ] at hr
    by_cases hin : i < n
    · rw [if_pos hin] at hr
      by_cases hld : ((L.hostLoad w (fun j => first (i + j)) (min (n - i) w)
            fun _ => init).1
          && (L.hostLoad w (fun j => second (i + j)) (min (n - i) w)
            fun _ => init).1) = true
      · rw [if_pos hld] at hr
        rcases List.mem_cons.mp hr with h | h
        · subst h
          rw [Bool.and_eq_true] at hld
          obtain ⟨h1, h2⟩ := hld
          exact ⟨hin, rfl, h1, h2, rfl, rfl, rfl, rfl, rfl, rfl⟩
        · exact ih _ _ h
      · rw [if_neg hld] at hr
        rcases List.mem_cons.mp hr with h | h
        · subst h
          refine ⟨hin, rfl, ?_⟩
          by_cases h1 : (L.hostLoad w (fun j => first (i + j)) (min (n - i) w)
              fun _ => init).1 = true
          · by_cases h2 : (L.hostLoad w (fun j => second (i + j)) (min (n - i) w)
                fun _ => init).1 = true
            · exact absurd (by simp [h1, h2]) hld
            · exact Or.inr (Bool.eq_false_iff.mpr h2)
          · exact Or.inl (Bool.eq_false_iff.mpr h1)
        · exact ih _ _ h
    · rw [if_neg hin] at hr
      simp at hr

lemma resAt_mem {w : Nat} {E : Type} (run : List (ChunkResult T w E))
    (k : Nat) (hk : k < run.length) : resAt run k ∈ run := by
  unfold resAt
  rw [List.getD_eq_getElem?_getD, List.getElem?_eq_getElem hk]
  simpa using List.getElem_mem hk

lemma hostRun_inv (L : LoaderImpl T) (op : BinaryOp T) (w n : Nat)
    (first second : Nat → T) (init : T) (k : Nat)
    (hk : k < (host_check_binary_op_one_loader L op w n first
      second init).length) :
    HostChunkInv L op w n first second init
      (resAt (host_check_binary_op_one_loader L op w n first second init)
        k) :=
  hostDriverLoop_mem L op w n first second init n 0 _ (resAt_mem _ _ hk)

lemma numChunks_succ (w m : Nat) (hw : 0 < w) (hm : 0 < m) :
    (m + w - 1) / w = (m - w + w - 1) / w + 1 := by
  by_cases h : w ≤ m
  · have h1 : m + w - 1 = (m - 1) + w := by omega
    have h2 : m - w + w - 1 = m - 1 := by omega
    rw [h1, h2, Nat.add_div_right _ hw]
  · have h1 : m + w - 1 = (m - 1) + w := by omega
    rw [h1, Nat.add_div_right _ hw]
    have h2 : m - w = 0 := by omega
    rw [h2]
    have h3 : (0 + w - 1) / w = 0 := Nat.div_eq_of_lt (by omega)
    have h4 : (m - 1) / w = 0 := Nat.div_eq_of_lt (by omega)
    omega

lemma range_mul_cons (c w i : Nat) :
    (List.range (c + 1)).map (fun k => i + k * w)
      = i :: (List.range c).map (fun k => (i + w) + k * w) := by
  rw [List.range_succ_eq_map, List.map_cons, List.map_map]
  refine congrArg₂ _ (by omega) ?_
  refine List.map_congr_left fun k _ => ?_
  simp [Function.comp, Nat.succ_mul]
  omega

lemma hostDriverLoop_starts (L : LoaderImpl T) (op : BinaryOp T) (w n : Nat)
    (first second : Nat → T) (init : T) (hw : 0 < w) :
    ∀ fuel i, n - i ≤ fuel →
      (hostDriverLoop L op w n first second init fuel i).map resStart
        = (List.range ((n - i + w - 1) / w)).map (fun k => i + k * w) := by
  intro fuel
  induction fuel with
  | zero =>
    intro i hi
    have h0 : n - i = 0 := by omega
    rw [hostDriverLoop, h0]
    simp [Nat.div_eq_of_lt (show w - 1 < w by omega)]
  | succ fuel ih =>
    intro i hi
    rw [hostDriverLoop_succ]
    by_cases hin : i < n
    · rw [if_pos hin]
      have hrec := ih (i + w) (by omega)
      have hsub : n - (i + w) = n - i - w := by omega
      have hnum : (n - i + w - 1) / w = (n - i - w + w - 1) / w + 1 :=
        numChunks_succ w (n - i) hw (by omega)
      rw [hnum, range_mul_cons]
      by_cases hld : ((L.hostLoad w (fun j => first (i + j)) (min (n - i) w)
            fun _ => init).1
          && (L.hostLoad w (fun j => second (i + j)) (min (n - i) w)
            fun _ => init).1) = true
      · rw [if_pos hld, List.map_cons, hrec, hsub]
        rfl
      · rw [if_neg hld, List.map_cons, hrec, hsub]
        rfl
    · rw [if_neg hin]
      have h0 : n - i = 0 := by omega
      rw [h0]
      simp [Nat.div_eq_of_lt (show w - 1 < w by omega)]

lemma hostRun_starts (L : LoaderImpl T) (op : BinaryOp T) (w n : Nat)
    (first second : Nat → T) (init : T) (hw : 0 < w) :
    (host_check_binary_op_one_loader L op w n first second init).map resStart
      = (List.range ((n + w - 1) / w)).map (fun k => k * w) := by
  have h := hostDriverLoop_starts L op w n first second init hw n 0
    (by omega)
  simpa using h

lemma runTrace_cons {w : Nat} {E : Type} (r : ChunkResult T w E)
    (rest : List (ChunkResult T w E)) :
    runTrace (r :: rest) = resEvents r ++ runTrace rest := rfl

lemma mem_runTrace {w : Nat} {E : Type} {run : List (ChunkResult T w E)}
    {e : E} : e ∈ runTrace run ↔ ∃ r ∈ run, e ∈ resEvents r := by
  induction run with
  | nil => simp [runTrace]
  | cons r rest ih => simp [runTrace_cons, ih]

lemma hostRun_not_aborted (L : LoaderImpl T) (op : BinaryOp T) (w n : Nat)
    (first second : Nat → T) (init : T) :
    runAborted (host_check_binary_op_one_loader L op w n first second init)
      = false := by
  rw [runAborted, List.any_eq_false]
  intro r hr
  have h := hostDriverLoop_mem L op w n first second init n 0 r hr
  cases r with
  | skipped s nl => simp [resAborted]
  | compared c =>
    obtain ⟨_, _, _, _, _, _, _, _, _, hab⟩ := h
    simp [resAborted, hab]

lemma hostRun_passes (L : LoaderImpl T) (op : BinaryOp T) (w n : Nat)
    (first second : Nat → T) (init : T) :
    runPasses hostEventPasses
      (host_check_binary_op_one_loader L op w n first second init) = true := by
  rw [runPasses, Bool.and_eq_true]
  refine ⟨?_, by rw [hostRun_not_aborted]; rfl⟩
  rw [List.all_eq_true]
  intro e he
  obtain ⟨r, hr, hev⟩ := mem_runTrace.mp he
  have h := hostDriverLoop_mem L op w n first second init n 0 r hr
  cases r with
  | skipped s nl => simp [resEvents] at hev
  | compared c =>
    obtain ⟨_, _, _, _, _, _, _, _, hevs, _⟩ := h
    rw [resEvents, hevs] at hev
    rcases hev with _ | ⟨_, hev⟩
    · rfl
    rcases hev with _ | ⟨_, hev⟩
    · rfl
    obtain ⟨j, _, hj⟩ := List.mem_map.mp hev
    rw [← hj]
    rfl

end HostDriver

section DeviceDriver

variable {T : Type} [DecidableEq T]

/-- The chunk record the device driver builds at start index `i` when both
loads succeed. -/
def deviceChunkAt (L : LoaderImpl T) (op : BinaryOp T) (w n : Nat)
    (first second : Nat → T) (init : T) (i : Nat) :
    ChunkCmp T w DeviceEvent :=
  let nl := min (n - i) w
  let a1 := (L.deviceLoad w (fun j => first (i + j)) nl fun _ => init).2
  let a2 := (L.deviceLoad w (fun j => second (i + j)) nl fun _ => init).2
  ⟨i, nl, a1, a2, fun j => op.on_device (a1 j) (a2 j),
    fun j => op.on_device (a1 j) (a2 j),
    DeviceEvent.assert true :: DeviceEvent.assert true ::
      (List.finRange w).map (fun _ => DeviceEvent.assert true),
    false⟩

/-- One-step unfolding of the device chunk loop; like the host loop, the
equality check of a compared chunk always passes, so no assertion halts. -/
lemma deviceDriverLoop_succ (L : LoaderImpl T) (op : BinaryOp T) (w n : Nat)
    (first second : Nat → T) (init : T) (fuel i : Nat) :
    deviceDriverLoop L op w n first second init (fuel + 1) i =
      if i < n then
        if (L.deviceLoad w (fun j => first (i + j)) (min (n - i) w)
              fun _ => init).1
            && (L.deviceLoad w (fun j => second (i + j)) (min (n - i) w)
              fun _ => init).1 then
          ChunkResult.compared (deviceChunkAt L op w n first second init i) ::
            deviceDriverLoop L op w n first second init fuel (i + w)
        else
          ChunkResult.skipped i (min (n - i) w) ::
            deviceDriverLoop L op w n first second init fuel (i + w)
      else [] := by
  rw [deviceDriverLoop]
  by_cases hin : i < n
  · rw [if_pos hin, if_pos hin]
    simp only [simdMap2_eq, device_check_equality_refl, deviceChunkAt]
    simp
  · rw [if_neg hin, if_neg hin]

/-- Everything that is true of any chunk the device driver's loop records. -/
def DeviceChunkInv (L : LoaderImpl T) (op : BinaryOp T) (w n : Nat)
    (first second : Nat → T) (init : T) :
    ChunkResult T w DeviceEvent → Prop
  | .skipped s nl =>
      s < n ∧ nl = min (n - s) w ∧
        ((L.deviceLoad w (fun j => first (s + j)) nl fun _ => init).1
            = false ∨
          (L.deviceLoad w (fun j => second (s + j)) nl fun _ => init).1
            = false)
  | .compared c =>
      c.start < n ∧ c.nlanes = min (n - c.start) w ∧
      (L.deviceLoad w (fun j => first (c.start + j)) c.nlanes
        fun _ => init).1 = true ∧
      (L.deviceLoad w (fun j => second (c.start + j)) c.nlanes
        fun _ => init).1 = true ∧
      c.arg1 = (L.deviceLoad w (fun j => first (c.start + j)) c.nlanes
        fun _ => init).2 ∧
      c.arg2 = (L.deviceLoad w (fun j => second (c.start + j)) c.nlanes
        fun _ => init).2 ∧
      c.expected = (fun j => op.on_device (c.arg1 j) (c.arg2 j)) ∧
      c.computed = c.expected ∧
      c.events = DeviceEvent.assert true :: DeviceEvent.assert true ::
        (List.finRange w).map (fun _ => DeviceEvent.assert true) ∧
      c.aborted = false

lemma deviceDriverLoop_mem (L : LoaderImpl T) (op : BinaryOp T) (w n : Nat)
    (first second : Nat → T) (init : T) :
    ∀ fuel i r, r ∈ deviceDriverLoop L op w n first second init fuel i →
      DeviceChunkInv L op w n first second init r := by
  intro fuel
  induction fuel with
  | zero =>
    intro i r hr
    rw [deviceDriverLoop] at hr
    simp at hr
  | succ fuel ih =>
    intro i r hr
    rw [deviceDriverLoop_succ] at hr
    by_cases hin : i < n
    · rw [if_pos hin] at hr
      by_cases hld : ((L.deviceLoad w (fun j => first (i + j)) (min (n - i) w)
            fun _ => init).1
          && (L.deviceLoad w (fun j => second (i + j)) (min (n - i) w)
            fun _ => init).1) = true
      · rw [if_pos hld] at hr
        rcases List.mem_cons.mp hr with h | h
        · subst h
          rw [Bool.and_eq_true] at hld
          obtain ⟨h1, h2⟩ := hld
          exact ⟨hin, rfl, h1, h2, rfl, rfl, rfl, rfl, rfl, rfl⟩
        · exact ih _ _ h
      · rw [if_neg hld] at hr
        rcases List.mem_cons.mp hr with h | h
        · subst h
          refine ⟨hin, rfl, ?_⟩
          by_cases h1 : (L.deviceLoad w (fun j => first (i + j))
              (min (n - i) w) fun _ => init).1 = true
          · by_cases h2 : (L.deviceLoad w (fun j => second (i + j))
                (min (n - i) w) fun _ => init).1 = true
            · exact absurd (by simp [h1, h2]) hld
            · exact Or.inr (Bool.eq_false_iff.mpr h2)
          · exact Or.inl (Bool.eq_false_iff.mpr h1)
        · exact ih _ _ h
    · rw [if_neg hin] at hr
      simp at hr

lemma deviceRun_inv (L : LoaderImpl T) (op : BinaryOp T) (w n : Nat)
    (first second : Nat → T) (init : T) (k : Nat)
    (hk : k < (device_check_binary_op_one_loader L op w n first
      second init).length) :
    DeviceChunkInv L op w n first second init
      (resAt (device_check_binary_op_one_loader L op w n first second init)
        k) :=
  deviceDriverLoop_mem L op w n first second init n 0 _ (resAt_mem _ _ hk)

lemma deviceDriverLoop_starts (L : LoaderImpl T) (op : BinaryOp T)
    (w n : Nat) (first second : Nat → T) (init : T) (hw : 0 < w) :
    ∀ fuel i, n - i ≤ fuel →
      (deviceDriverLoop L op w n first second init fuel i).map resStart
        = (List.range ((n - i + w - 1) / w)).map (fun k => i + k * w) := by
  intro fuel
  induction fuel with
  | zero =>
    intro i hi
    have h0 : n - i = 0 := by omega
    rw [deviceDriverLoop, h0]
    simp [Nat.div_eq_of_lt (show w - 1 < w by omega)]
  | succ fuel ih =>
    intro i hi
    rw [deviceDriverLoop_succ]
    by_cases hin : i < n
    · rw [if_pos hin]
      have hrec := ih (i + w) (by omega)
      have hsub : n - (i + w) = n - i - w := by omega
      have hnum : (n - i + w - 1) / w = (n - i - w + w - 1) / w + 1 :=
        numChunks_succ w (n - i) hw (by omega)
      rw [hnum, range_mul_cons]
      by_cases hld : ((L.deviceLoad w (fun j => first (i + j))
            (min (n - i) w) fun _ => init).1
          && (L.deviceLoad w (fun j => second (i + j)) (min (n - i) w)
            fun _ => init).1) = true
      · rw [if_pos hld, List.map_cons, hrec, hsub]
        rfl
      · rw [if_neg hld, List.map_cons, hrec, hsub]
        rfl
    · rw [if_neg hin]
      have h0 : n - i = 0 := by omega
      rw [h0]
      simp [Nat.div_eq_of_lt (show w - 1 < w by omega)]

lemma deviceRun_starts (L : LoaderImpl T) (op : BinaryOp T) (w n : Nat)
    (first second : Nat → T) (init : T) (hw : 0 < w) :
    (device_check_binary_op_one_loader L op w n first second init).map
        resStart
      = (List.range ((n + w - 1) / w)).map (fun k => k * w) := by
  have h := deviceDriverLoop_starts L op w n first second init hw n 0
    (by omega)
  simpa using h

lemma deviceRun_not_aborted (L : LoaderImpl T) (op : BinaryOp T) (w n : Nat)
    (first second : Nat → T) (init : T) :
    runAborted (device_check_binary_op_one_loader L op w n first second init)
      = false := by
  rw [runAborted, List.any_eq_false]
  intro r hr
  have h := deviceDriverLoop_mem L op w n first second init n 0 r hr
  cases r with
  | skipped s nl => simp [resAborted]
  | compared c =>
    obtain ⟨_, _, _, _, _, _, _, _, _, hab⟩ := h
    simp [resAborted, hab]

lemma deviceRun_passes (L : LoaderImpl T) (op : BinaryOp T) (w n : Nat)
    (first second : Nat → T) (init : T) :
    runPasses deviceEventPasses
      (device_check_binary_op_one_loader L op w n first second init)
      = true := by
  rw [runPasses, Bool.and_eq_true]
  refine ⟨?_, by rw [deviceRun_not_aborted]; rfl⟩
  rw [List.all_eq_true]
  intro e he
  obtain ⟨r, hr, hev⟩ := mem_runTrace.mp he
  have h := deviceDriverLoop_mem L op w n first second init n 0 r hr
  cases r with
  | skipped s nl => simp [resEvents] at hev
  | compared c =>
    obtain ⟨_, _, _, _, _, _, _, _, hevs, _⟩ := h
    rw [resEvents, hevs] at hev
    rcases hev with _ | ⟨_, hev⟩
    · rfl
    rcases hev with _ | ⟨_, hev⟩
    · rfl
    obtain ⟨j, _, hj⟩ := List.mem_map.mp hev
    rw [← hj]
    rfl

end DeviceDriver

section Lockstep

variable {T : Type} [DecidableEq T]

lemma driverLoop_lockstep (L : LoaderImpl T) (op : BinaryOp T) (w n : Nat)
    (first second : Nat → T) (init : T)
    (hop : op.on_host = op.on_device) (hL : L.hostLoad = L.deviceLoad) :
    ∀ fuel i,
      (hostDriverLoop L op w n first second init fuel i).map chunkSummary
        = (deviceDriverLoop L op w n first second init fuel i).map
            chunkSummary := by
  intro fuel
  induction fuel with
  | zero =>
    intro i
    rw [hostDriverLoop, deviceDriverLoop]
    rfl
  | succ fuel ih =>
    intro i
    rw [hostDriverLoop_succ, deviceDriverLoop_succ, ← hL]
    by_cases hin : i < n
    · rw [if_pos hin, if_pos hin]
      by_cases hld : ((L.hostLoad w (fun j => first (i + j)) (min (n - i) w)
            fun _ => init).1
          && (L.hostLoad w (fun j => second (i + j)) (min (n - i) w)
            fun _ => init).1) = true
      · rw [if_pos hld, if_pos hld, List.map_cons, List.map_cons, ih]
        refine congrArg₂ _ ?_ rfl
        simp [chunkSummary, hostChunkAt, deviceChunkAt, ← hL, ← hop]
      · rw [if_neg hld, if_neg hld, List.map_cons, List.map_cons, ih]
        rfl
    · rw [if_neg hin, if_neg hin]
      rfl

lemma oneLoader_lockstep (L : LoaderImpl T) (op : BinaryOp T) (w n : Nat)
    (first second : Nat → T) (init : T)
    (hop : op.on_host = op.on_device) (hL : L.hostLoad = L.deviceLoad) :
    (host_check_binary_op_one_loader L op w n first second init).map
        chunkSummary
      = (device_check_binary_op_one_loader L op w n first second init).map
          chunkSummary :=
  driverLoop_lockstep L op w n first second init hop hL n 0

end Lockstep

section Dispatch

lemma host_all_loaders_eq {T : Type} [DecidableEq T] [Zero T]
    (op : BinaryOp T) (w n : Nat) (first second : Nat → T) (init : T) :
    host_check_binary_op_all_loaders op w n first second init =
      [(runTrace (host_check_binary_op_one_loader (load_element_aligned T)
          op w n first second init), false),
        (runTrace (host_check_binary_op_one_loader (load_masked T)
          op w n first second init), false),
        (runTrace (host_check_binary_op_one_loader (load_as_scalars T)
          op w n first second init), false)] := by
  simp [host_check_binary_op_all_loaders, hostRun_not_aborted]

lemma host_check_abi_not_aborted (w : Nat) (init : Int) :
    abiAborted (host_check_abi w init) = false := by
  rw [host_check_abi, host_check_addition, host_all_loaders_eq]
  simp [abiAborted]

lemma host_check_abis_eq (init : Int) (set : List Nat) :
    host_check_abis init set
      = set.map fun a => (a, host_check_abi a init) := by
  induction set with
  | nil => rfl
  | cons a rest ih => simp [host_check_abis, host_check_abi_not_aborted, ih]

lemma dispatch_not_aborted (init : Int) (set : List Nat) :
    dispatchAborted (host_check_abis init set) = false := by
  rw [host_check_abis_eq, dispatchAborted, List.any_eq_false]
  intro p hp
  obtain ⟨a, _, ha⟩ := List.mem_map.mp hp
  rw [← ha]
  simp [host_check_abi_not_aborted]

end Dispatch

section Scenario

/-- Any of the three shipped loaders that reports success has loaded exactly
the first `nl` source elements into the low lanes and zero into the rest. -/
lemma loader_shape_of_mem {T : Type} [Zero T] {L : LoaderImpl T}
    (hL : L = load_element_aligned T ∨ L = load_masked T ∨
      L = load_as_scalars T)
    {w : Nat} (mem : Nat → T) (nl : Nat) (dest : Fin w → T)
    (h : (L.hostLoad w mem nl dest).1 = true) (j : Fin w) :
    (L.hostLoad w mem nl dest).2 j = if j.val < nl then mem j.val else 0 := by
  rcases hL with h1 | h1 | h1 <;> subst h1
  · exact load_element_aligned_shape mem nl dest h j
  · exact load_masked_shape mem nl dest j
  · exact load_as_scalars_shape mem nl dest j

lemma firstArgs_add_secondArgs :
    ∀ m, m < 7 → firstArgs m + secondArgs m = sumArgs m := by
  decide

/-- The driver run `host_check_addition` performs for one loader: the shipped
scenario (addition, `n = 7`, the two literal operand arrays). -/
def additionRun (w : Nat) (init : Int) (L : LoaderImpl Int) :
    List (ChunkResult Int w (HostEvent Int)) :=
  host_check_binary_op_one_loader L (plusOp Int) w 7 firstArgs secondArgs init

end Scenario

section ClaimC2

/-- C2: for every source pointer, available count `n`, and destination batch
of width `w`, the element-aligned loader returns failure and leaves the
destination batch unmutated exactly when `n < w`, and otherwise returns
success and bulk-copies exactly `w` contiguous elements into the batch; and
its host-side and device-side load forms are the same function. -/
theorem c2_element_aligned_loader {T : Type} (w : Nat) (mem : Nat → T)
    (n : Nat) (dest : Fin w → T) :
    (((load_element_aligned T).hostLoad w mem n dest).1 = false ↔ n < w) ∧
    (n < w → ((load_element_aligned T).hostLoad w mem n dest).2 = dest) ∧
    (w ≤ n → ((load_element_aligned T).hostLoad w mem n dest).1 = true ∧
      ∀ j : Fin w, ((load_element_aligned T).hostLoad w mem n dest).2 j
        = mem j.val) ∧
    (load_element_aligned T).hostLoad
      = (load_element_aligned T).deviceLoad := by
  refine ⟨?_, ?_, ?_, rfl⟩
  · by_cases h : n < w <;> simp [load_element_aligned, h]
  · intro h
    simp [load_element_aligned, h]
  · intro h
    simp [load_element_aligned, Nat.not_lt.mpr h]

/-- Witness for C2 at concrete inputs: with width 4 the element-aligned
loader declines an available count of 2 and leaves the destination batch
unchanged, while it accepts an available count of 7. -/
theorem c2_element_aligned_loader_witness :
    (((load_element_aligned Int).hostLoad 4 firstArgs 2 fun _ => 9).2
      = fun _ => 9) ∧
    ((load_element_aligned Int).hostLoad 4 firstArgs 7 fun _ => 9).1
      = true :=
  ⟨(c2_element_aligned_loader 4 firstArgs 2 fun _ => 9).2.1 (by decide),
    ((c2_element_aligned_loader 4 firstArgs 7 fun _ => 9).2.2.1
      (by decide)).1⟩

end ClaimC2

section ClaimC3

/-- C3: for every source pointer, available count `n ≤ w`, and destination
batch, the masked loader and the scalar loader both always return success,
place the first `n` source elements into lanes `0..n-1`, and set every lane
with index `≥ n` to zero; the masked loader builds a mask with exactly the
first `n` lanes true, and both loaders' host and device load forms agree. -/
theorem c3_masked_scalar_loaders {T : Type} [Zero T] (w : Nat)
    (mem : Nat → T) (n : Nat) (dest : Fin w → T) (hn : n ≤ w) :
    ((load_masked T).hostLoad w mem n dest).1 = true ∧
    ((load_as_scalars T).hostLoad w mem n dest).1 = true ∧
    (∀ j : Fin w, ((load_masked T).hostLoad w mem n dest).2 j
      = if j.val < n then mem j.val else 0) ∧
    (∀ j : Fin w, ((load_as_scalars T).hostLoad w mem n dest).2 j
      = if j.val < n then mem j.val else 0) ∧
    (∀ j : Fin w, buildMask w n j = decide (j.val < n)) ∧
    (load_masked T).hostLoad = (load_masked T).deviceLoad ∧
    (load_as_scalars T).hostLoad = (load_as_scalars T).deviceLoad :=
  ⟨rfl, rfl, fun j => load_masked_shape mem n dest j,
    fun j => load_as_scalars_shape mem n dest j,
    fun j => buildMask_apply w n j, rfl, rfl⟩

/-- Witness for C3 at concrete inputs: width 4, available count 3. -/
theorem c3_masked_scalar_loaders_witness :
    (3 : Nat) ≤ 4 ∧
    ((load_masked Int).hostLoad 4 firstArgs 3 fun _ => 9).1 = true ∧
    (((load_masked Int).hostLoad 4 firstArgs 3 fun _ => 9).2 3
      = if (3 : Fin 4).val < 3 then firstArgs (3 : Fin 4).val else 0) :=
  ⟨by decide,
    (c3_masked_scalar_loaders 4 firstArgs 3 (fun _ => 9) (by decide)).1,
    (c3_masked_scalar_loaders 4 firstArgs 3 (fun _ => 9)
      (by decide)).2.2.1 3⟩

end ClaimC3

section ClaimC6

/-- C6 counterexample: at the concrete mismatched pair `(0, 1)` the host
equality checker terminates the run, and its trace contains no structured
gtest record at all — `std::abort()` executes before `EXPECT_EQ(a, b)` is
reached, so the mismatch is never recorded through the test-failure
mechanism, contrary to the claim that recording happens before/alongside
termination. -/
theorem c6_counterexample :
    (gtest_equality (0 : Int) 1).2 = true ∧
    (gtest_equality (0 : Int) 1).1.any hostEventIsRecord = false := by
  decide

/-- C6 amended: on an equality mismatch the host checker terminates the
process immediately and records nothing through the structured test-failure
mechanism (the abort precedes `EXPECT_EQ`, which therefore never executes);
only on equal values does `EXPECT_EQ` execute, recording a passing
comparison, and then the run continues. -/
theorem c6_abort_precedes_record {T : Type} [DecidableEq T] (a b : T) :
    (a ≠ b → gtest_equality a b = ([HostEvent.abortCall], true)) ∧
    (a = b → gtest_equality a b = ([HostEvent.expectEq a b], false)) := by
  constructor
  · intro h
    simp [gtest_equality, h]
  · intro h
    simp [gtest_equality, h]

/-- Witness for the amended C6 at concrete inputs `(0, 1)` and `(2, 2)`. -/
theorem c6_abort_precedes_record_witness :
    ((0 : Int) ≠ 1 ∧
      gtest_equality (0 : Int) 1 = ([HostEvent.abortCall], true)) ∧
    ((2 : Int) = 2 ∧
      gtest_equality (2 : Int) 2 = ([HostEvent.expectEq 2 2], false)) :=
  ⟨⟨by decide, (c6_abort_precedes_record (0 : Int) 1).1 (by decide)⟩,
    ⟨rfl, (c6_abort_precedes_record (2 : Int) 2).2 rfl⟩⟩

end ClaimC6

section ClaimC7

/-- Expected batch of the C7 counterexample: lanes `(1, 0)`. -/
def c7exp : Fin 2 → Int :=
  fun j => if j.val = 0 then 1 else 0

/-- Computed batch of the C7 counterexample: lanes `(1, 5)`. -/
def c7comp : Fin 2 → Int :=
  fun j => if j.val = 0 then 1 else 5

/-- C7 counterexample: on the concrete batch pair `(1,0)` versus `(1,5)`
both reduction assertions fail (two `EXPECT_TRUE(false)` records), yet the
host checker run continues past them and still performs a further per-lane
`EXPECT_EQ` comparison (lane 0) before the lane-1 elementwise mismatch
finally aborts.  A failed reduction assertion is therefore not fatal and is
not handled like an elementwise mismatch, which aborts at once. -/
theorem c7_counterexample :
    host_check_equality c7exp c7comp
      = ([HostEvent.expectTrue false, HostEvent.expectTrue false,
          HostEvent.expectEq 1 1, HostEvent.abortCall], true) := by
  decide

lemma host_equality_loop_aborts {T : Type} [DecidableEq T] {w : Nat}
    (e c : Fin w → T) (l : List (Fin w)) :
    (host_equality_loop e c l).2 = true ↔ ∃ i ∈ l, e i ≠ c i := by
  induction l with
  | nil => simp [host_equality_loop]
  | cons i rest ih =>
    by_cases h : e i = c i
    · simp [host_equality_loop, gtest_equality, h, ih]
    · simp [host_equality_loop, gtest_equality, h]

/-- C7 amended: in the host context a failed reduction assertion is recorded
through the non-fatal `EXPECT_TRUE` and the run continues past it —
`gtest_checker::truth` never stops the run, both reduction records always
head the trace whatever their value, and the checker terminates the run if
and only if some individual lane pair differs (the elementwise `EXPECT_EQ`
path), never because a reduction assertion alone was false. -/
theorem c7_truth_nonfatal {T : Type} [DecidableEq T] {w : Nat}
    (e c : Fin w → T) :
    (∀ x : Bool, gtest_truth T x = ([HostEvent.expectTrue x], false)) ∧
    (host_check_equality e c).1.take 2
      = [HostEvent.expectTrue (all_of (simdEqMask e c)),
          HostEvent.expectTrue (none_of (simdNeMask e c))] ∧
    ((host_check_equality e c).2 = true ↔ ∃ i, e i ≠ c i) := by
  refine ⟨fun x => rfl, rfl, ?_⟩
  rw [show (host_check_equality e c).2
      = (host_equality_loop e c (List.finRange w)).2 from rfl]
  rw [host_equality_loop_aborts]
  simp [List.mem_finRange]

/-- Witness for the amended C7 at the concrete batch pair of the
counterexample: both reduction records are emitted (with value false) and
the run is terminated by the lane-1 elementwise mismatch. -/
theorem c7_truth_nonfatal_witness :
    (host_check_equality c7exp c7comp).1.take 2
      = [HostEvent.expectTrue false, HostEvent.expectTrue false] ∧
    (host_check_equality c7exp c7comp).2 = true := by
  constructor
  · rw [(c7_truth_nonfatal c7exp c7comp).2.1]
    decide
  · exact (c7_truth_nonfatal c7exp c7comp).2.2.mpr ⟨1, by decide⟩

end ClaimC7

section ClaimC1

/-- C1: in the shipped scenario (addition, operands
`[1,2,-1,10,0,1,-2]` and `[1,2,1,1,0,-3,-2]`, `n = 7`), every chunk the
driver compares, under each of the three loader strategies and for every
width and initial batch contents, carries per-lane expected and computed
values equal to `[2,4,0,11,0,-2,-4]` at the lanes holding valid elements
(`start + lane < 7`), while at lanes beyond the available count both the
expected and the computed batch hold zero (so they compare equal), and the
chunk's check never aborts. -/
theorem c1_addition_scenario (w : Nat) (init : Int) (L : LoaderImpl Int)
    (hL : L = load_element_aligned Int ∨ L = load_masked Int ∨
      L = load_as_scalars Int)
    (k : Nat) (hk : k < (additionRun w init L).length) (j : Fin w)
    (hc : resIsCompared (resAt (additionRun w init L) k) = true) :
    resAborted (resAt (additionRun w init L) k) = false ∧
    (resStart (resAt (additionRun w init L) k) + j.val < 7 →
      resExpected (resAt (additionRun w init L) k) j
          = sumArgs (resStart (resAt (additionRun w init L) k) + j.val) ∧
        resComputed (resAt (additionRun w init L) k) j
          = sumArgs (resStart (resAt (additionRun w init L) k) + j.val)) ∧
    (7 ≤ resStart (resAt (additionRun w init L) k) + j.val →
      resExpected (resAt (additionRun w init L) k) j = 0 ∧
        resComputed (resAt (additionRun w init L) k) j = 0) := by
  have hinv : HostChunkInv L (plusOp Int) w 7 firstArgs secondArgs init
      (resAt (additionRun w init L) k) :=
    hostRun_inv L (plusOp Int) w 7 firstArgs secondArgs init k hk
  cases hres : resAt (additionRun w init L) k with
  | skipped s nl =>
    rw [hres] at hc
    simp [resIsCompared] at hc
  | compared c =>
    rw [hres] at hinv
    obtain ⟨hs, hnl, h1, h2, ha1, ha2, hexp, hcomp, _, hab⟩ := hinv
    have hj := j.isLt
    simp only [resAborted, resExpected, resComputed, resStart]
    refine ⟨hab, ?_, ?_⟩
    · intro hlt
      have hjn : j.val < c.nlanes := by
        rw [hnl]
        omega
      have e1 : c.arg1 j = firstArgs (c.start + j.val) := by
        rw [ha1, loader_shape_of_mem hL _ _ _ h1 j, if_pos hjn]
      have e2 : c.arg2 j = secondArgs (c.start + j.val) := by
        rw [ha2, loader_shape_of_mem hL _ _ _ h2 j, if_pos hjn]
      have hexpj : c.expected j = c.arg1 j + c.arg2 j := by
        rw [hexp]
        rfl
      constructor
      · rw [hexpj, e1, e2, firstArgs_add_secondArgs _ hlt]
      · rw [hcomp, hexpj, e1, e2, firstArgs_add_secondArgs _ hlt]
    · intro hge
      have hjn : ¬ j.val < c.nlanes := by
        rw [hnl]
        omega
      have e1 : c.arg1 j = 0 := by
        rw [ha1, loader_shape_of_mem hL _ _ _ h1 j, if_neg hjn]
      have e2 : c.arg2 j = 0 := by
        rw [ha2, loader_shape_of_mem hL _ _ _ h2 j, if_neg hjn]
      have hexpj : c.expected j = c.arg1 j + c.arg2 j := by
        rw [hexp]
        rfl
      constructor
      · rw [hexpj, e1, e2]
        rfl
      · rw [hcomp, hexpj, e1, e2]
        rfl

/-- Witness for C1: width 4, masked loader, second chunk (start 4, three
valid lanes), lane 3 — the lane beyond the available count, where both
batches hold zero. -/
theorem c1_addition_scenario_witness :
    1 < (additionRun 4 3 (load_masked Int)).length ∧
    resIsCompared (resAt (additionRun 4 3 (load_masked Int)) 1) = true ∧
    resExpected (resAt (additionRun 4 3 (load_masked Int)) 1) 3 = 0 ∧
    resComputed (resAt (additionRun 4 3 (load_masked Int)) 1) 3 = 0 := by
  refine ⟨by decide, by decide, ?_⟩
  have h := (c1_addition_scenario 4 3 (load_masked Int)
    (Or.inr (Or.inl rfl)) 1 (by decide) 3 (by decide)).2.2 (by decide)
  exact h

end ClaimC1

section ClaimC4

/-- C4: for every element type, operation, loader strategy, input length,
argument arrays and initial batch contents, and every width `w > 0`, both
the host and the device comparison driver visit exactly the chunk start
indices `0, w, 2w, ...` below `n`, hand the loader `min(n - i, w)` lanes for
the chunk starting at `i`, contribute no checker events for a chunk whose
load declined (it is skipped, not failed), and complete with every performed
assertion passing and no abort — so a declined load skips only that chunk's
comparison, registers no test failure, and iteration continues with the next
chunk. -/
theorem c4_driver_chunking {T : Type} [DecidableEq T] (L : LoaderImpl T)
    (op : BinaryOp T) (w n : Nat) (first second : Nat → T) (init : T)
    (hw : 0 < w) :
    ((host_check_binary_op_one_loader L op w n first second init).map
        resStart
      = (List.range ((n + w - 1) / w)).map (fun k => k * w)) ∧
    ((device_check_binary_op_one_loader L op w n first second init).map
        resStart
      = (List.range ((n + w - 1) / w)).map (fun k => k * w)) ∧
    (∀ k, k < (host_check_binary_op_one_loader L op w n first second
        init).length →
      resNlanes (resAt (host_check_binary_op_one_loader L op w n first
          second init) k)
        = min (n - resStart (resAt (host_check_binary_op_one_loader L op w n
            first second init) k)) w ∧
      (resIsCompared (resAt (host_check_binary_op_one_loader L op w n first
          second init) k) = false →
        resEvents (resAt (host_check_binary_op_one_loader L op w n first
          second init) k) = ([] : List (HostEvent T)))) ∧
    (∀ k, k < (device_check_binary_op_one_loader L op w n first second
        init).length →
      resNlanes (resAt (device_check_binary_op_one_loader L op w n first
          second init) k)
        = min (n - resStart (resAt (device_check_binary_op_one_loader L op
            w n first second init) k)) w ∧
      (resIsCompared (resAt (device_check_binary_op_one_loader L op w n
          first second init) k) = false →
        resEvents (resAt (device_check_binary_op_one_loader L op w n first
          second init) k) = ([] : List DeviceEvent))) ∧
    runPasses hostEventPasses
      (host_check_binary_op_one_loader L op w n first second init) = true ∧
    runPasses deviceEventPasses
      (device_check_binary_op_one_loader L op w n first second init)
      = true := by
  refine ⟨hostRun_starts L op w n first second init hw,
    deviceRun_starts L op w n first second init hw, ?_, ?_,
    hostRun_passes L op w n first second init,
    deviceRun_passes L op w n first second init⟩
  · intro k hk
    have h := hostRun_inv L op w n first second init k hk
    cases hres : resAt (host_check_binary_op_one_loader L op w n first
        second init) k with
    | skipped s nl =>
      rw [hres] at h
      obtain ⟨_, hnl, _⟩ := h
      exact ⟨by simp [resNlanes, resStart, hnl], fun _ => rfl⟩
    | compared c =>
      rw [hres] at h
      obtain ⟨_, hnl, _⟩ := h
      refine ⟨by simp [resNlanes, resStart, hnl], ?_⟩
      intro hfalse
      simp [resIsCompared] at hfalse
  · intro k hk
    have h := deviceRun_inv L op w n first second init k hk
    cases hres : resAt (device_check_binary_op_one_loader L op w n first
        second init) k with
    | skipped s nl =>
      rw [hres] at h
      obtain ⟨_, hnl, _⟩ := h
      exact ⟨by simp [resNlanes, resStart, hnl], fun _ => rfl⟩
    | compared c =>
      rw [hres] at h
      obtain ⟨_, hnl, _⟩ := h
      refine ⟨by simp [resNlanes, resStart, hnl], ?_⟩
      intro hfalse
      simp [resIsCompared] at hfalse

/-- Witness for C4: width 4, `n = 7`, element-aligned loader — the trailing
chunk at start 4 is visited, gets `min(7-4, 4) = 3` lanes, is skipped, and
contributes no events; the run still passes. -/
theorem c4_driver_chunking_witness :
    (0 : Nat) < 4 ∧
    ((host_check_binary_op_one_loader (load_element_aligned Int)
        (plusOp Int) 4 7 firstArgs secondArgs 0).map resStart
      = (List.range ((7 + 4 - 1) / 4)).map (fun k => k * 4)) ∧
    resEvents (resAt (host_check_binary_op_one_loader
        (load_element_aligned Int) (plusOp Int) 4 7 firstArgs secondArgs 0)
        1)
      = ([] : List (HostEvent Int)) :=
  ⟨by decide,
    (c4_driver_chunking (load_element_aligned Int) (plusOp Int) 4 7
      firstArgs secondArgs 0 (by decide)).1,
    ((c4_driver_chunking (load_element_aligned Int) (plusOp Int) 4 7
      firstArgs secondArgs 0 (by decide)).2.2.1 1 (by decide)).2
      (by decide)⟩

end ClaimC4

section ClaimC5

/-- C5: for every compared chunk, in both the host and the device context,
the driver performs exactly the three assertion groups in this order — (a)
the all-lanes-equal reduction over (expected, computed), which holds true,
(b) the no-lane-not-equal reduction, which holds true, and (c) one per-lane
equality assertion for every lane index `0..w-1` in order — and the expected
batch is obtained by applying the scalar call form of the operation per lane
to the already-loaded batches' own lane values (not to raw memory), and it
equals the computed batch. -/
theorem c5_assertion_structure {T : Type} [DecidableEq T] [Zero T]
    (L : LoaderImpl T) (op : BinaryOp T) (w n : Nat)
    (first second : Nat → T) (init : T) :
    (∀ k, k < (host_check_binary_op_one_loader L op w n first second
        init).length →
      resIsCompared (resAt (host_check_binary_op_one_loader L op w n first
        second init) k) = true →
      resEvents (resAt (host_check_binary_op_one_loader L op w n first
          second init) k)
        = HostEvent.expectTrue true :: HostEvent.expectTrue true ::
            (List.finRange w).map (fun j => HostEvent.expectEq
              (resExpected (resAt (host_check_binary_op_one_loader L op w n
                first second init) k) j)
              (resComputed (resAt (host_check_binary_op_one_loader L op w n
                first second init) k) j)) ∧
        resExpected (resAt (host_check_binary_op_one_loader L op w n first
            second init) k)
          = (fun j => op.on_host
              (resArg1 (resAt (host_check_binary_op_one_loader L op w n
                first second init) k) j)
              (resArg2 (resAt (host_check_binary_op_one_loader L op w n
                first second init) k) j)) ∧
        resComputed (resAt (host_check_binary_op_one_loader L op w n first
            second init) k)
          = resExpected (resAt (host_check_binary_op_one_loader L op w n
              first second init) k)) ∧
    (∀ k, k < (device_check_binary_op_one_loader L op w n first second
        init).length →
      resIsCompared (resAt (device_check_binary_op_one_loader L op w n
        first second init) k) = true →
      resEvents (resAt (device_check_binary_op_one_loader L op w n first
          second init) k)
        = DeviceEvent.assert true :: DeviceEvent.assert true ::
            (List.finRange w).map (fun _ => DeviceEvent.assert true) ∧
        resExpected (resAt (device_check_binary_op_one_loader L op w n
            first second init) k)
          = (fun j => op.on_device
              (resArg1 (resAt (device_check_binary_op_one_loader L op w n
                first second init) k) j)
              (resArg2 (resAt (device_check_binary_op_one_loader L op w n
                first second init) k) j)) ∧
        resComputed (resAt (device_check_binary_op_one_loader L op w n
            first second init) k)
          = resExpected (resAt (device_check_binary_op_one_loader L op w n
              first second init) k)) := by
  constructor
  · intro k hk hc
    have h := hostRun_inv L op w n first second init k hk
    cases hres : resAt (host_check_binary_op_one_loader L op w n first
        second init) k with
    | skipped s nl =>
      rw [hres] at hc
      simp [resIsCompared] at hc
    | compared c =>
      rw [hres] at h
      obtain ⟨_, _, _, _, ha1, ha2, hexp, hcomp, hev, _⟩ := h
      simp only [resEvents, resExpected, resComputed, resArg1, resArg2]
      exact ⟨hev, by rw [hexp, ha1, ha2], hcomp⟩
  · intro k hk hc
    have h := deviceRun_inv L op w n first second init k hk
    cases hres : resAt (device_check_binary_op_one_loader L op w n first
        second init) k with
    | skipped s nl =>
      rw [hres] at hc
      simp [resIsCompared] at hc
    | compared c =>
      rw [hres] at h
      obtain ⟨_, _, _, _, ha1, ha2, hexp, hcomp, hev, _⟩ := h
      simp only [resEvents, resExpected, resComputed, resArg1, resArg2]
      exact ⟨hev, by rw [hexp, ha1, ha2], hcomp⟩

/-- Witness for C5: masked loader, width 2, `n = 3`, first chunk, host
context: its computed batch equals its expected batch. -/
theorem c5_assertion_structure_witness :
    resComputed (resAt (host_check_binary_op_one_loader (load_masked Int)
        (plusOp Int) 2 3 firstArgs secondArgs 7) 0)
      = resExpected (resAt (host_check_binary_op_one_loader (load_masked
          Int) (plusOp Int) 2 3 firstArgs secondArgs 7) 0) :=
  ((c5_assertion_structure (load_masked Int) (plusOp Int) 2 3 firstArgs
    secondArgs 7).1 0 (by decide) (by decide)).2.2

end ClaimC5

section ClaimC8

/-- C8: the ABI dispatcher runs the full host-side check sequence exactly
once for each configuration of the set, in the set's declared left-to-right
order — it equals the map of the per-configuration check over the set, so no
configuration is skipped and none runs twice — and on the empty set it does
nothing; it is a total structurally recursive function, so it terminates on
every finite set. -/
theorem c8_abi_dispatch (init : Int) (set : List Nat) :
    host_check_abis init set
        = set.map (fun a => (a, host_check_abi a init)) ∧
      host_check_abis init [] = [] :=
  ⟨host_check_abis_eq init set, rfl⟩

end ClaimC8

section ClaimC9

/-- C9: running the full configuration-set dispatch twice in one process, on
the same configuration set and the same fixed argument arrays, yields two
runs that both happen (the first never aborts the process) and whose
pass/fail outcomes are identical — the dispatch is a deterministic function
of its inputs with no mutable state carried from the first run into the
second. -/
theorem c9_dispatch_idempotent (init : Int) (set : List Nat) :
    host_check_abis_twice init set
      = [host_check_abis init set, host_check_abis init set] := by
  simp [host_check_abis_twice, dispatch_not_aborted]

end ClaimC9

section ClaimC10

/-- C10: for every loader strategy whose host and device load forms compute
the same function and every binary operation whose host and device call
forms compute the same function, the host-context and the device-context
comparison drivers are semantically equivalent: chunk for chunk they make
the same skip decision and record the same start, lane count, loaded batches
and (expected, computed) batch pair — their context-neutral summaries are
identical — and the host run passes exactly when the device run does. -/
theorem c10_host_device_equivalence {T : Type} [DecidableEq T]
    (L : LoaderImpl T) (op : BinaryOp T) (w n : Nat)
    (first second : Nat → T) (init : T)
    (hop : op.on_host = op.on_device) (hL : L.hostLoad = L.deviceLoad) :
    ((host_check_binary_op_one_loader L op w n first second init).map
        chunkSummary
      = (device_check_binary_op_one_loader L op w n first second init).map
          chunkSummary) ∧
    runPasses hostEventPasses
        (host_check_binary_op_one_loader L op w n first second init)
      = runPasses deviceEventPasses
          (device_check_binary_op_one_loader L op w n first second init) := by
  refine ⟨oneLoader_lockstep L op w n first second init hop hL, ?_⟩
  rw [hostRun_passes, deviceRun_passes]

/-- Witness for C10: addition with the masked loader at width 2, `n = 3`:
the two call forms agree definitionally and the summaries coincide. -/
theorem c10_host_device_equivalence_witness :
    (plusOp Int).on_host = (plusOp Int).on_device ∧
    (load_masked Int).hostLoad = (load_masked Int).deviceLoad ∧
    ((host_check_binary_op_one_loader (load_masked Int) (plusOp Int) 2 3
        firstArgs secondArgs 0).map chunkSummary
      = (device_check_binary_op_one_loader (load_masked Int) (plusOp Int) 2
          3 firstArgs secondArgs 0).map chunkSummary) :=
  ⟨rfl, rfl, (c10_host_device_equivalence (load_masked Int) (plusOp Int) 2 3
    firstArgs secondArgs 0 rfl rfl).1⟩

end ClaimC10

end SimdTest
